import Mathlib

/-!
Shallow embedding of the neural-network runner game (`script.js` / the main
source file): the neuron → layer → network forward pass and the generational
evolutionary loop (`Game.restartGame`).

Modelling conventions:
* JavaScript numbers (IEEE-754 doubles) are modelled as exact rationals `ℚ`.
* `NaN` (produced in the source by reading past the end of an array:
  `undefined` entering arithmetic) is modelled by `Option ℚ`, with `none`
  playing the role of NaN.  All five scalar activation functions of the
  source map NaN to NaN, which `Option.map` reflects.
* Every `Math.random()` call site is given an explicit oracle argument
  (a stream `Nat → ℚ`, or an indexed family for the reproduction step),
  making the random draws explicit inputs of the model.
* A thrown JS exception is an `Except JsError` value.  The source throws
  plain `Error`s; the three distinguishable situations are named after the
  specification's taxonomy (`configError` for build-time failures,
  `shapeError` for the predict length check, `typeError` for calling a
  non-function / array method on a scalar).
-/

namespace NNGame

/-- Error taxonomy for the thrown JS exceptions (see module comment). -/
inductive JsError where
  | shapeError
  | typeError
  | configError
deriving DecidableEq, Repr

/-- A value stored in the activation-function registry.  The source stores
plain JS functions; five of them consume a scalar, while `softmax` consumes
a whole array.  Applying a vector function where a scalar function is
expected throws a `TypeError` in JS (`arr.map is not a function`). -/
inductive ActFn where
  | scalar (f : ℚ → ℚ)
  | vector (f : List ℚ → List ℚ)

/-- `linear(x) = x`. -/
def linear (x : ℚ) : ℚ := x

/-- `relu(x) = max(0, x)`. -/
def relu (x : ℚ) : ℚ := max 0 x

/-- `leakyRelu(x, alpha = 0.01) = max(alpha * x, x)`. -/
def leakyRelu (x : ℚ) (alpha : ℚ := 1/100) : ℚ := max (alpha * x) x

/-- The `NeuralActivationFunc` lookup table of the source, as a partial map
from the name string.  `sigmoid`, `tanh` and `softmax` use the transcendental
exponential, which has no computable counterpart on `ℚ`; their numeric bodies
are parameters of the model (no claim under verification depends on their
values, only on scalar-versus-vector calling convention). -/
def NeuralActivationFunc (sigmoidF tanhF : ℚ → ℚ) (softmaxF : List ℚ → List ℚ) :
    String → Option ActFn
  | "SIGMOID" => some (.scalar sigmoidF)
  | "RELU" => some (.scalar relu)
  | "LEAKY_RELU" => some (.scalar (fun x => leakyRelu x))
  | "LINEAR" => some (.scalar linear)
  | "TANH" => some (.scalar tanhF)
  | "SOFTMAX" => some (.vector softmaxF)
  | _ => none

/-- The `Neuron` class: a weight vector, a bias, and a stored activation
function. -/
structure Neuron where
  weights : List ℚ
  bias : ℚ
  activationFunc : ActFn

/-- The loop of `Neuron.activate`:
`result = Σ_{i < weights.length} weights[i] * entries[i]`, then `+ bias`.
`entries` elements are `Option ℚ` (a `none` is a NaN already present in the
input); reading past the end of `entries` yields `undefined`, whose product
with a number is NaN — both are the `none` case of the bind. -/
def Neuron.weightedSum (n : Neuron) (entries : List (Option ℚ)) : Option ℚ :=
  ((List.range n.weights.length).foldl
    (fun acc i => do
      let a ← acc
      let e ← entries.getD i none
      pure (a + n.weights.getD i 0 * e))
    (some 0)).map (· + n.bias)

/-- `Neuron.activate(entries)`: computes the weighted sum and applies the
stored activation function.  There is no length check in the source.  A
scalar activation maps NaN to NaN (true of all five scalar registry
functions); the vector-valued `softmax` applied to the scalar sum throws a
`TypeError`. -/
def Neuron.activate (n : Neuron) (entries : List (Option ℚ)) :
    Except JsError (Option ℚ) :=
  match n.activationFunc with
  | .scalar f => .ok ((n.weightedSum entries).map f)
  | .vector _ => .error .typeError

/-- Total (exception-free) version of `activate`, used to state the pure
characterisation of `predict`; agrees with `activate` on scalar neurons. -/
def Neuron.activateT (n : Neuron) (entries : List (Option ℚ)) : Option ℚ :=
  match n.activationFunc with
  | .scalar f => (n.weightedSum entries).map f
  | .vector _ => none

/-- `Neuron.create(weightsSize, activationFunc)`: `weightsSize` weights then
the bias, drawn from the `Math.random()` stream `rnd` starting at position
`p`; returns the neuron and the next unused stream position. -/
def Neuron.create (rnd : Nat → ℚ) (p : Nat) (weightsSize : Nat) (f : ActFn) :
    Neuron × Nat :=
  (⟨(List.range weightsSize).map (fun i => rnd (p + i)), rnd (p + weightsSize), f⟩,
    p + weightsSize + 1)

/-- `Neuron.createMutation(weight, mut)`: `weight - mut`, replaced by
`weight + mut` when `Math.random() >= 0.5` (the explicit `coin`, `true`
meaning the `+` branch), then clamped by `Math.max(0.01, result)`.
The source's parameter `mut` is spelled `mutAmt` (`mut` is a Lean keyword). -/
def Neuron.createMutation (weight mutAmt : ℚ) (coin : Bool) : ℚ :=
  max (1/100) (if coin then weight + mutAmt else weight - mutAmt)

/-- The `NeuralLayer` class. -/
structure NeuralLayer where
  neurons : List Neuron
  isOutputLayer : Bool

/-- `get size()` of a layer. -/
def NeuralLayer.size (l : NeuralLayer) : Nat := l.neurons.length

/-- The neuron-creating loop of `NeuralLayer.create`, threading the random
stream position. -/
def createNeurons (rnd : Nat → ℚ) (p : Nat) :
    Nat → Nat → ActFn → List Neuron × Nat
  | 0, _, _ => ([], p)
  | k + 1, weightsSize, f =>
      let (n, p1) := Neuron.create rnd p weightsSize f
      let (ns, p2) := createNeurons rnd p1 k weightsSize f
      (n :: ns, p2)

/-- `NeuralLayer.create(size, weightsSize, isOutputLayer, activationFunc)`. -/
def NeuralLayer.create (rnd : Nat → ℚ) (p : Nat) (size weightsSize : Nat)
    (isOutputLayer : Bool) (f : ActFn) : NeuralLayer × Nat :=
  let (ns, p1) := createNeurons rnd p size weightsSize f
  (⟨ns, isOutputLayer⟩, p1)

/-- The `NeuralNetwork` class (just its `layers` array). -/
structure NeuralNetwork where
  layers : List NeuralLayer

/-- `get size()` of a network. -/
def NeuralNetwork.size (nn : NeuralNetwork) : Nat := nn.layers.length

/-- One entry of the `layersConfig` argument: `{ size, funcName }`. -/
structure LayerConfig where
  size : Nat
  funcName : String

/-- The layer-building loop of `createLayers`.  `isFirst` tells whether the
current config entry has index 0 (its neurons then take exactly one weight
and `isOutputLayer` is passed as `false`); otherwise the per-neuron input
width is the previous entry's `size` and `isOutputLayer` is the test
`i === layersConfig.length - 1`, i.e. whether the rest is empty.  An unknown
function name throws (`configError`). -/
def createLayersGo (reg : String → Option ActFn) (rnd : Nat → ℚ) :
    List LayerConfig → Bool → Nat → Nat →
      Except JsError (List NeuralLayer × Nat)
  | [], _, _, p => .ok ([], p)
  | c :: rest, isFirst, prevSize, p =>
      match reg c.funcName with
      | none => .error .configError
      | some f =>
          let (layer, p1) :=
            if isFirst then NeuralLayer.create rnd p c.size 1 false f
            else NeuralLayer.create rnd p c.size prevSize rest.isEmpty f
          do
            let (ls, p2) ← createLayersGo reg rnd rest false c.size p1
            .ok (layer :: ls, p2)

/-- `NeuralNetwork.createLayers(layersConfig)`: rejects an empty (or absent)
config, then builds the layers in order, resolving each activation name in
the registry `reg`. -/
def NeuralNetwork.createLayers (reg : String → Option ActFn) (rnd : Nat → ℚ)
    (layersConfig : List LayerConfig) : Except JsError NeuralNetwork :=
  if layersConfig.isEmpty then .error .configError
  else do
    let (ls, _) ← createLayersGo reg rnd layersConfig true 0 0
    .ok ⟨ls⟩

/-- The first loop of `predict`: neuron `i` of the input layer is fed the
one-element slice `[values[neuronIndex]]`.  When the neurons outnumber the
values (impossible after the length check) the read past the end yields
`undefined`, i.e. NaN. -/
def firstLayerPass : List Neuron → List ℚ → Except JsError (List (Option ℚ))
  | [], _ => .ok []
  | n :: ns, [] => do
      let r ← n.activate [none]
      let rs ← firstLayerPass ns []
      .ok (r :: rs)
  | n :: ns, v :: vs => do
      let r ← n.activate [some v]
      let rs ← firstLayerPass ns vs
      .ok (r :: rs)

/-- The inner loop of `predict` for one later layer: every neuron is fed the
whole previous output vector. -/
def neuronsPass (input : List (Option ℚ)) :
    List Neuron → Except JsError (List (Option ℚ))
  | [] => .ok []
  | n :: ns => do
      let r ← n.activate input
      let rs ← neuronsPass input ns
      .ok (r :: rs)

/-- The outer loop of `predict` over the layers after the first: each layer's
outputs become the next layer's shared input; the last value is returned. -/
def layersPass : List NeuralLayer → List (Option ℚ) →
    Except JsError (List (Option ℚ))
  | [], input => .ok input
  | l :: ls, input => do
      let temp ← neuronsPass input l.neurons
      layersPass ls temp

/-- `NeuralNetwork.predict(values)`.  On an empty network the source
dereferences `this.layers[0].size` on `undefined` (a `TypeError`); otherwise
a length mismatch against the first layer's size throws (the spec's
`ShapeError`), and then the vector is propagated through the layers. -/
def NeuralNetwork.predict (nn : NeuralNetwork) (values : List ℚ) :
    Except JsError (List (Option ℚ)) :=
  match nn.layers with
  | [] => .error .typeError
  | l0 :: rest =>
      if values.length ≠ l0.size then .error .shapeError
      else do
        let first ← firstLayerPass l0.neurons values
        layersPass rest first

/-- `MUTATION_MULT = 0.1`: the mutation-magnitude scale. -/
def MUTATION_MULT : ℚ := 1/10

/-- `BOX_INIT_VELOCITY = 0.15`. -/
def BOX_INIT_VELOCITY : ℚ := 15/100

/-- The fields of the `Robot` class that take part in the evolutionary loop:
its network, the alive flag, the accumulated fitness (`distance`), the
position, and the sprite frame height used by the position reset. -/
structure Robot where
  nn : NeuralNetwork
  isAlive : Bool
  distance : ℚ
  posX : ℚ
  posY : ℚ
  frameHeight : ℚ

/-- The fields of the `Box` class used by `restartGame`. -/
structure Box where
  posX : ℚ
  posY : ℚ
  velocity : ℚ
  spriteHeight : ℚ

/-- Insertion step of a stable descending sort by `distance`: the inserted
robot `r` comes from an earlier population index than everything in the
already-sorted list, so it stays in front of any robot ranking no better
(`x.distance ≤ r.distance`) and moves past a strictly better one. -/
def sortInsert (r : Robot) : List Robot → List Robot
  | [] => [r]
  | x :: xs =>
      if x.distance ≤ r.distance then r :: x :: xs else x :: sortInsert r xs

/-- `robots.sort((a, b) => b.distance - a.distance)`: JS `Array.prototype.sort`
is stable (ES2019), and a stable sort for a given preorder has a unique
result, so the insertion sort below is an exact model of the source's call:
fitness descending, ties kept in original population order. -/
def sortRobots : List Robot → List Robot
  | [] => []
  | x :: xs => sortInsert x (sortRobots xs)

/-- Specification-side characterisation used to check the ranking step: the
lowest-index robot among those attaining the maximal `distance` (ties between
an earlier and a later robot are won by the earlier one). -/
def lowestIndexMax : List Robot → Option Robot
  | [] => none
  | x :: xs =>
      match lowestIndexMax xs with
      | none => some x
      | some m => if x.distance < m.distance then some m else some x

/-- One oracle per `Math.random()` call site of `restartGame`, indexed by the
loop indices in scope at that site (`i` = rank position, `l` = layer, `n` =
neuron, `j` = weight).  This models the i.i.d. draws of `Math.random()`
without fixing a global consumption order. -/
structure RestartOracle where
  boxCoin : Bool
  freshW : Nat → Nat → Nat → Nat → ℚ
  freshB : Nat → Nat → Nat → ℚ
  mutRndW : Nat → Nat → Nat → Nat → ℚ
  mutCoinW : Nat → Nat → Nat → Nat → Bool
  mutRndB : Nat → Nat → Nat → ℚ
  mutCoinB : Nat → Nat → Nat → Bool

/-- The innermost body of the mutation loop, for the neuron at layer `l`,
position `n` of the rank-`i` robot.  `reinit` is the (loop-invariant) tier
test `i >= robots.length * 0.8`: the reinitialisation tier replaces every
weight and the bias by fresh `Math.random()` draws; the elite-mutation tier
derives each from the corresponding best-robot value via `createMutation`
with magnitude `Math.random() * MUTATION_MULT`.  Only `weights` and `bias`
are written; the robot's own activation function is kept. -/
def mutateNeuron (o : RestartOracle) (i l n : Nat) (reinit : Bool)
    (neuron bestNeuron : Neuron) : Neuron :=
  if reinit then
    { neuron with
        weights := (List.range bestNeuron.weights.length).map (fun j => o.freshW i l n j)
        bias := o.freshB i l n }
  else
    { neuron with
        weights := bestNeuron.weights.enum.map
          (fun jw => Neuron.createMutation jw.2
            (o.mutRndW i l n jw.1 * MUTATION_MULT) (o.mutCoinW i l n jw.1))
        bias := Neuron.createMutation bestNeuron.bias
          (o.mutRndB i l n * MUTATION_MULT) (o.mutCoinB i l n) }

/-- The per-layer loop of `restartGame`: pairs the robot's neurons with the
best robot's neurons at the same positions.  (In the source unequal neuron
counts would dereference `undefined`; every robot is built from the same
`DEFAULT_NN_CONFIG`, so the zip never truncates in any reachable state.) -/
def mutateLayer (o : RestartOracle) (i l : Nat) (reinit : Bool)
    (layer bestLayer : NeuralLayer) : NeuralLayer :=
  { layer with
      neurons := (layer.neurons.zip bestLayer.neurons).enum.map
        (fun p => mutateNeuron o i l p.1 reinit p.2.1 p.2.2) }

/-- The body of the `for (let i = 1; ...)` loop of `restartGame` for the
robot at rank position `i` of a population of `numRobots`: rewrite its
network from the best robot's network according to the tier test, then set
it alive and put it back at the start position.  Its `distance` is not
touched. -/
def reproduceRobot (o : RestartOracle) (numRobots : Nat) (platformY : ℚ)
    (i : Nat) (best robot : Robot) : Robot :=
  let reinit : Bool := decide ((numRobots : ℚ) * (8/10) ≤ (i : ℚ))
  { robot with
      nn := ⟨(robot.nn.layers.zip best.nn.layers).enum.map
        (fun p => mutateLayer o i p.1 reinit p.2.1 p.2.2)⟩
      isAlive := true
      posX := 10
      posY := platformY - robot.frameHeight }

/-- The final lines of `restartGame` for the best robot: alive and back at
the start position; its network and `distance` are untouched. -/
def resetRobot (platformY : ℚ) (r : Robot) : Robot :=
  { r with isAlive := true, posX := 10, posY := platformY - r.frameHeight }

/-- The box reset at the top of `restartGame`. -/
def resetBox (o : RestartOracle) (viewWidth platformY : ℚ) (box : Box) : Box :=
  { box with
      posX := viewWidth + 100
      posY := if o.boxCoin then platformY - box.spriteHeight * 4
              else platformY - box.spriteHeight
      velocity := BOX_INIT_VELOCITY }

/-- `Game.restartGame()`: reset the box, rank the robots by fitness
descending (stable), keep the best robot's network untouched, and rewrite
every other robot's network from the best one according to the 80/20 tier
split; every robot ends alive at the start position.  The source updates the
robot objects in place through the sorted local array `robots`; the model
returns the population in that rank order (a permutation of the input).
The `#pause = false` flag of the source is game-loop plumbing outside this
model. -/
def Game.restartGame (o : RestartOracle) (viewWidth platformY : ℚ)
    (box : Box) (pop : List Robot) : Box × List Robot :=
  let box1 := resetBox o viewWidth platformY box
  match sortRobots pop with
  | [] => (box1, [])
  | best :: rest =>
      (box1,
        resetRobot platformY best ::
          rest.enum.map (fun p => reproduceRobot o pop.length platformY (p.1 + 1) best p.2))

/-- A neuron whose stored activation function follows the scalar calling
convention (all registry entries except `SOFTMAX`). -/
def Neuron.IsScalar (n : Neuron) : Prop := ∃ f, n.activationFunc = ActFn.scalar f

/-- The five activation names whose registry entries are scalar functions —
the names the specification lists as recognized (`SOFTMAX` is reserved,
vector-only). -/
def scalarNames : List String := ["SIGMOID", "RELU", "LEAKY_RELU", "LINEAR", "TANH"]

/-! Concrete instances used by the closed counterexamples and witnesses. -/

/-- A one-layer, one-neuron robot with the given accumulated distance. -/
def cRobot (d : ℚ) : Robot :=
  ⟨⟨[⟨[⟨[2], 2, .scalar linear⟩], false⟩]⟩, false, d, 10, 366, 64⟩

/-- A concrete reproduction oracle. -/
def cOracle : RestartOracle :=
  ⟨true, fun _ _ _ _ => 2, fun _ _ _ => 2, fun _ _ _ _ => 2,
   fun _ _ _ _ => true, fun _ _ _ => 2, fun _ _ _ => true⟩

/-- A concrete box. -/
def cBox : Box := ⟨700, 398, 15/100, 32⟩

/-- A concrete registry instantiation (identity bodies stand in for the
transcendental functions, which no claim depends on). -/
def cReg : String → Option ActFn :=
  NeuralActivationFunc (fun x => x) (fun x => x) (fun l => l)

/-- A concrete `Math.random()` stream. -/
def cRnd : Nat → ℚ := fun _ => 2

/-- The network `createLayers` builds from `[{size: 1, funcName: "SOFTMAX"}]`
under `cReg`/`cRnd`. -/
def cSoftNet : NeuralNetwork := ⟨[⟨[⟨[2], 2, .vector (fun l => l)⟩], false⟩]⟩

/-- The network `createLayers` builds from
`[{size: 2, funcName: "LINEAR"}, {size: 1, funcName: "LINEAR"}]` under
`cReg`/`cRnd`. -/
def cLinNet : NeuralNetwork :=
  ⟨[⟨[⟨[2], 2, .scalar linear⟩, ⟨[2], 2, .scalar linear⟩], false⟩,
    ⟨[⟨[2, 2], 2, .scalar linear⟩], true⟩]⟩

/-- The neuron of the C9 counterexample: one weight, scalar activation. -/
def cNeuron : Neuron := ⟨[2], 1, .scalar linear⟩

/-- The single neuron of `cRobot`'s network. -/
def cNeuron0 : Neuron := ⟨[2], 2, .scalar linear⟩

/-- A concrete two-layer configuration with scalar activations. -/
def cCfg : List LayerConfig := [⟨2, "LINEAR"⟩, ⟨1, "LINEAR"⟩]

/-- The single layer of `cRobot`'s network. -/
def cLayer : NeuralLayer := ⟨[cNeuron0], false⟩

/-! ### Mutation operator (claims C3, C4) -/

/-- C3: for every input value and every magnitude argument, including
arbitrarily large (or negative) magnitudes and either coin draw, the result
of `Neuron.createMutation` is at least the floor `0.01`. -/
theorem C3_theorem (weight mutAmt : ℚ) (coin : Bool) :
    1/100 ≤ Neuron.createMutation weight mutAmt coin :=
  le_max_left _ _

/-- C4 as frozen is false: at `weight = 0.01` with positive magnitude `0.05`
and the subtraction branch, the clamp returns exactly the original value. -/
theorem C4_counterexample :
    0 < (5/100 : ℚ) ∧ Neuron.createMutation (1/100) (5/100) false = 1/100 := by
  refine ⟨by norm_num, ?_⟩
  norm_num [Neuron.createMutation]

/-- C4 (amended): for a strictly positive magnitude the mutation result
differs from the original value, except exactly when the original value is
the floor `0.01` and the subtraction branch is drawn — clamping then
returns the original value unchanged. -/
theorem C4_theorem (weight mutAmt : ℚ) (coin : Bool) (h : 0 < mutAmt) :
    Neuron.createMutation weight mutAmt coin = weight ↔
      weight = 1/100 ∧ coin = false := by
  unfold Neuron.createMutation
  cases coin with
  | true =>
      rw [if_pos rfl]
      constructor
      · intro hm
        have h2 := le_max_right (1/100 : ℚ) (weight + mutAmt)
        rw [hm] at h2
        exact absurd h2 (by linarith)
      · rintro ⟨-, hc⟩
        exact absurd hc (by simp)
  | false =>
      rw [if_neg Bool.false_ne_true]
      constructor
      · intro hm
        rcases max_choice (1/100) (weight - mutAmt) with hc | hc
        · rw [hc] at hm
          exact ⟨hm.symm, rfl⟩
        · rw [hc] at hm
          exact absurd hm (by intro hm2; linarith [sub_eq_self.mp hm2])
      · rintro ⟨hw, -⟩
        subst hw
        exact max_eq_left (by linarith)

/-- Witness for C4 (amended) at `weight = 2`, `mutAmt = 1`, `coin = true`. -/
theorem C4_witness :
    0 < (1 : ℚ) ∧
      (Neuron.createMutation 2 1 true = 2 ↔ (2 : ℚ) = 1/100 ∧ true = false) :=
  ⟨by norm_num, C4_theorem 2 1 true (by norm_num)⟩

/-! ### Stable ranking (claim C10) -/

theorem sortInsert_perm (r : Robot) (l : List Robot) :
    (sortInsert r l).Perm (r :: l) := by
  induction l with
  | nil => rfl
  | cons x xs ih =>
      by_cases h : x.distance ≤ r.distance
      · simp [sortInsert, h]
      · simp only [sortInsert, if_neg h]
        exact (ih.cons x).trans (List.Perm.swap r x xs)

theorem sortRobots_perm (l : List Robot) : (sortRobots l).Perm l := by
  induction l with
  | nil => rfl
  | cons x xs ih =>
      exact (sortInsert_perm x (sortRobots xs)).trans (ih.cons x)

theorem sortInsert_pairwise (r : Robot) (l : List Robot)
    (h : l.Pairwise (fun a b => b.distance ≤ a.distance)) :
    (sortInsert r l).Pairwise (fun a b => b.distance ≤ a.distance) := by
  induction l with
  | nil => simp [sortInsert]
  | cons x xs ih =>
      rcases List.pairwise_cons.mp h with ⟨hx, hxs⟩
      by_cases hc : x.distance ≤ r.distance
      · rw [sortInsert, if_pos hc]
        refine List.pairwise_cons.mpr ⟨?_, h⟩
        intro b hb
        rcases List.mem_cons.mp hb with rfl | hb2
        · exact hc
        · exact le_trans (hx b hb2) hc
      · rw [sortInsert, if_neg hc]
        refine List.pairwise_cons.mpr ⟨?_, ih hxs⟩
        intro b hb
        have hb1 : b ∈ r :: xs := (List.Perm.mem_iff (sortInsert_perm r xs)).mp hb
        rcases List.mem_cons.mp hb1 with rfl | hb2
        · exact le_of_lt (lt_of_not_le hc)
        · exact hx b hb2

theorem sortRobots_pairwise (l : List Robot) :
    (sortRobots l).Pairwise (fun a b => b.distance ≤ a.distance) := by
  induction l with
  | nil => simp [sortRobots]
  | cons x xs ih => exact sortInsert_pairwise x (sortRobots xs) ih

theorem sortInsert_filter (r : Robot) (l : List Robot) (d : ℚ) :
    (sortInsert r l).filter (fun x => decide (x.distance = d)) =
      if r.distance = d then r :: l.filter (fun x => decide (x.distance = d))
      else l.filter (fun x => decide (x.distance = d)) := by
  induction l with
  | nil =>
      by_cases hr : r.distance = d <;> simp [sortInsert, hr]
  | cons x xs ih =>
      rw [sortInsert]
      by_cases hc : x.distance ≤ r.distance
      · rw [if_pos hc]
        by_cases hr : r.distance = d <;> simp [List.filter_cons, hr]
      · rw [if_neg hc]
        have hlt : r.distance < x.distance := lt_of_not_le hc
        by_cases hr : r.distance = d
        · have hx : ¬ x.distance = d := by
            intro hx
            exact absurd (hx.trans hr.symm) (ne_of_gt hlt)
          simp [List.filter_cons, hx, ih, hr]
        · by_cases hx : x.distance = d <;>
            simp [List.filter_cons, hx, ih, hr]

theorem sortRobots_filter (l : List Robot) (d : ℚ) :
    (sortRobots l).filter (fun x => decide (x.distance = d)) =
      l.filter (fun x => decide (x.distance = d)) := by
  induction l with
  | nil => rfl
  | cons x xs ih =>
      show (sortInsert x (sortRobots xs)).filter _ = _
      rw [sortInsert_filter, ih]
      by_cases hx : x.distance = d <;> simp [List.filter_cons, hx]

theorem sortInsert_head? (r : Robot) (l : List Robot) :
    (sortInsert r l).head? = some (match l with
      | [] => r
      | x :: _ => if x.distance ≤ r.distance then r else x) := by
  cases l with
  | nil => rfl
  | cons x xs =>
      by_cases hc : x.distance ≤ r.distance <;>
        simp [sortInsert, hc]

theorem sortRobots_head? (l : List Robot) :
    (sortRobots l).head? = lowestIndexMax l := by
  induction l with
  | nil => rfl
  | cons x xs ih =>
      show (sortInsert x (sortRobots xs)).head? = _
      rw [sortInsert_head?]
      cases hsx : sortRobots xs with
      | nil =>
          rw [hsx] at ih
          simp only [lowestIndexMax, ← ih]
          rfl
      | cons y ys =>
          rw [hsx] at ih
          simp only [List.head?] at ih
          simp only [lowestIndexMax, ← ih]
          by_cases hc : y.distance ≤ x.distance
          · rw [if_pos hc, if_neg (not_lt.mpr hc)]
          · rw [if_neg hc, if_pos (lt_of_not_le hc)]

/-- C10: the ranking step.  The sorted list is a permutation of the
population, ordered by fitness descending; robots of equal fitness keep
their original relative order (stability, stated as filter-invariance for
every fitness value); and the selected best — the head of the sorted list —
is the lowest-index robot among those of maximal fitness. -/
theorem C10_theorem (pop : List Robot) :
    (sortRobots pop).Perm pop ∧
    (sortRobots pop).Pairwise (fun a b => b.distance ≤ a.distance) ∧
    (∀ d : ℚ, (sortRobots pop).filter (fun x => decide (x.distance = d)) =
      pop.filter (fun x => decide (x.distance = d))) ∧
    (sortRobots pop).head? = lowestIndexMax pop :=
  ⟨sortRobots_perm pop, sortRobots_pairwise pop,
    fun d => sortRobots_filter pop d, sortRobots_head? pop⟩

/-! ### Reproduction cycle (claims C1, C2, C5) -/

theorem restartGame_snd_nil (o : RestartOracle) (vw pY : ℚ) (box : Box)
    (pop : List Robot) (hs : sortRobots pop = []) :
    (Game.restartGame o vw pY box pop).2 = [] := by
  unfold Game.restartGame
  rw [hs]

theorem restartGame_snd_cons (o : RestartOracle) (vw pY : ℚ) (box : Box)
    (pop : List Robot) (best : Robot) (rest : List Robot)
    (hs : sortRobots pop = best :: rest) :
    (Game.restartGame o vw pY box pop).2 =
      resetRobot pY best ::
        rest.enum.map (fun p => reproduceRobot o pop.length pY (p.1 + 1) best p.2) := by
  unfold Game.restartGame
  rw [hs]

theorem enum_map_reproduce_distance (o : RestartOracle) (N : Nat) (pY : ℚ)
    (best : Robot) (rest : List Robot) :
    (rest.enum.map (fun p => reproduceRobot o N pY (p.1 + 1) best p.2)).map
        Robot.distance = rest.map Robot.distance := by
  rw [List.map_map]
  have h1 : (Robot.distance ∘ fun p : Nat × Robot =>
      reproduceRobot o N pY (p.1 + 1) best p.2) = Robot.distance ∘ Prod.snd := rfl
  rw [h1, ← List.map_map, List.enum_map_snd]

/-- C1 (amended): after every reproduction cycle every robot of the
population — the carried-over best included — has its alive flag set to
`true`, but the accumulated fitness is NOT reset: `restartGame` never writes
`distance`, so every robot keeps its pre-reproduction fitness (the returned
population, in rank order, has exactly the fitness values of the ranked
pre-reproduction population). -/
theorem C1_theorem (o : RestartOracle) (vw pY : ℚ) (box : Box)
    (pop : List Robot) :
    (∀ r ∈ (Game.restartGame o vw pY box pop).2, r.isAlive = true) ∧
    (Game.restartGame o vw pY box pop).2.map Robot.distance =
      (sortRobots pop).map Robot.distance := by
  cases hs : sortRobots pop with
  | nil =>
      rw [restartGame_snd_nil o vw pY box pop hs]
      simp
  | cons best rest =>
      rw [restartGame_snd_cons o vw pY box pop best rest hs]
      constructor
      · intro r hr
        rcases List.mem_cons.mp hr with rfl | hr2
        · rfl
        · rcases List.mem_map.mp hr2 with ⟨p, -, rfl⟩
          rfl
      · rw [List.map_cons, enum_map_reproduce_distance]
        rfl

/-- C1 as frozen is false on the code: in a three-robot population with
fitness values 5, 7 and 3, the post-reproduction population still carries
the fitness values 7, 5, 3 (in rank order) — in particular an agent with
fitness 7 ≠ 0 — where the claim demands fitness 0 for all three. -/
theorem C1_counterexample :
    ((Game.restartGame cOracle 600 430 cBox
        [cRobot 5, cRobot 7, cRobot 3]).2.map Robot.distance) = [7, 5, 3] ∧
      (7 : ℚ) ≠ 0 := by
  constructor
  · norm_num [Game.restartGame, sortRobots, sortInsert, resetRobot,
      reproduceRobot, cRobot, cOracle, cBox, List.enum]
  · norm_num

/-- C2: implicit elitism.  If the ranking yields `best` first, then `best`'s
fitness was maximal over the whole pre-reproduction population, and the
head of the post-reproduction population carries `best`'s network
completely unchanged (`restartGame` rewrites only `isAlive` and the
position of the best robot, never its `nn`). -/
theorem C2_theorem (o : RestartOracle) (vw pY : ℚ) (box : Box)
    (pop : List Robot) (best : Robot) (rest : List Robot)
    (h : sortRobots pop = best :: rest) :
    (∀ r ∈ pop, r.distance ≤ best.distance) ∧
    (Game.restartGame o vw pY box pop).2.head?.map Robot.nn = some best.nn := by
  constructor
  · intro r hr
    have hr2 : r ∈ sortRobots pop := (sortRobots_perm pop).mem_iff.mpr hr
    rw [h] at hr2
    rcases List.mem_cons.mp hr2 with rfl | hr3
    · exact le_refl _
    · have hp := sortRobots_pairwise pop
      rw [h] at hp
      exact (List.pairwise_cons.mp hp).1 r hr3
  · rw [restartGame_snd_cons o vw pY box pop best rest h]
    rfl

/-- Witness for C2 on a concrete three-robot population. -/
theorem C2_witness :
    sortRobots [cRobot 5, cRobot 7, cRobot 3] =
        cRobot 7 :: [cRobot 5, cRobot 3] ∧
      ((∀ r ∈ [cRobot 5, cRobot 7, cRobot 3], r.distance ≤ (cRobot 7).distance) ∧
        (Game.restartGame cOracle 600 430 cBox
            [cRobot 5, cRobot 7, cRobot 3]).2.head?.map Robot.nn =
          some (cRobot 7).nn) := by
  have hs : sortRobots [cRobot 5, cRobot 7, cRobot 3] =
      cRobot 7 :: [cRobot 5, cRobot 3] := by
    norm_num [sortRobots, sortInsert, cRobot]
  exact ⟨hs, C2_theorem cOracle 600 430 cBox _ _ _ hs⟩

theorem reproduceRobot_neuron (o : RestartOracle) (N : Nat) (pY : ℚ) (i : Nat)
    (best robot : Robot) (l n : Nat) (layer bestLayer : NeuralLayer)
    (neuron bestNeuron : Neuron)
    (hL : robot.nn.layers[l]? = some layer)
    (hBL : best.nn.layers[l]? = some bestLayer)
    (hN : layer.neurons[n]? = some neuron)
    (hBN : bestLayer.neurons[n]? = some bestNeuron) :
    ∃ layer2 neuron2,
      (reproduceRobot o N pY i best robot).nn.layers[l]? = some layer2 ∧
      layer2.neurons[n]? = some neuron2 ∧
      neuron2 = mutateNeuron o i l n (decide ((N : ℚ) * (8/10) ≤ (i : ℚ)))
        neuron bestNeuron := by
  have hz : (robot.nn.layers.zip best.nn.layers)[l]? = some (layer, bestLayer) :=
    List.getElem?_zip_eq_some.mpr ⟨hL, hBL⟩
  have hz2 : (layer.neurons.zip bestLayer.neurons)[n]? = some (neuron, bestNeuron) :=
    List.getElem?_zip_eq_some.mpr ⟨hN, hBN⟩
  refine ⟨mutateLayer o i l (decide ((N : ℚ) * (8/10) ≤ (i : ℚ))) layer bestLayer,
    mutateNeuron o i l n (decide ((N : ℚ) * (8/10) ≤ (i : ℚ))) neuron bestNeuron,
    ?_, ?_, rfl⟩
  · show ((robot.nn.layers.zip best.nn.layers).enum.map _)[l]? = _
    rw [List.getElem?_map, List.getElem?_enum, hz]
    rfl
  · show ((layer.neurons.zip bestLayer.neurons).enum.map _)[n]? = _
    rw [List.getElem?_map, List.getElem?_enum, hz2]
    rfl

/-- C5: the tier split of reproduction.  For the non-best robot at rank
position `i = k + 1`: whenever `0.8 * N ≤ i` (`N` the population size) its
neuron at any layer/position has every weight and the bias replaced by
fresh oracle draws (the formulas mention only the oracle, not the best
robot's parameter values — only the weight count comes from the best
neuron); otherwise every weight and the bias are derived from the
corresponding best-robot value by `createMutation` with magnitude
`draw * MUTATION_MULT`, which lies in `[0, MUTATION_MULT)` whenever the
draw lies in `[0, 1)`. -/
theorem C5_theorem (o : RestartOracle) (vw pY : ℚ) (box : Box)
    (pop : List Robot) (best : Robot) (rest : List Robot)
    (h : sortRobots pop = best :: rest)
    (k : Nat) (robot : Robot) (hk : rest[k]? = some robot)
    (l : Nat) (layer bestLayer : NeuralLayer)
    (hL : robot.nn.layers[l]? = some layer)
    (hBL : best.nn.layers[l]? = some bestLayer)
    (n : Nat) (neuron bestNeuron : Neuron)
    (hN : layer.neurons[n]? = some neuron)
    (hBN : bestLayer.neurons[n]? = some bestNeuron) :
    ∃ robot2 layer2 neuron2,
      (Game.restartGame o vw pY box pop).2[k + 1]? = some robot2 ∧
      robot2.nn.layers[l]? = some layer2 ∧
      layer2.neurons[n]? = some neuron2 ∧
      (if (pop.length : ℚ) * (8/10) ≤ ((k + 1 : Nat) : ℚ) then
        neuron2.weights =
          (List.range bestNeuron.weights.length).map (fun j => o.freshW (k+1) l n j) ∧
        neuron2.bias = o.freshB (k+1) l n
       else
        neuron2.weights = bestNeuron.weights.enum.map (fun jw =>
          Neuron.createMutation jw.2 (o.mutRndW (k+1) l n jw.1 * MUTATION_MULT)
            (o.mutCoinW (k+1) l n jw.1)) ∧
        neuron2.bias = Neuron.createMutation bestNeuron.bias
          (o.mutRndB (k+1) l n * MUTATION_MULT) (o.mutCoinB (k+1) l n)) ∧
      (∀ u : ℚ, 0 ≤ u → u < 1 →
        0 ≤ u * MUTATION_MULT ∧ u * MUTATION_MULT < MUTATION_MULT) := by
  rw [restartGame_snd_cons o vw pY box pop best rest h]
  rcases reproduceRobot_neuron o pop.length pY (k+1) best robot l n layer bestLayer
      neuron bestNeuron hL hBL hN hBN with ⟨layer2, neuron2, hA, hB, hC⟩
  refine ⟨reproduceRobot o pop.length pY (k+1) best robot, layer2, neuron2, ?_, hA, hB,
    ?_, ?_⟩
  · rw [List.getElem?_cons_succ, List.getElem?_map, List.getElem?_enum, hk]
    rfl
  · by_cases hcond : (pop.length : ℚ) * (8/10) ≤ ((k + 1 : Nat) : ℚ)
    · rw [if_pos hcond]
      rw [hC]
      unfold mutateNeuron
      rw [if_pos (decide_eq_true hcond)]
      exact ⟨rfl, rfl⟩
    · rw [if_neg hcond]
      rw [hC]
      unfold mutateNeuron
      rw [if_neg (by simpa using hcond)]
      exact ⟨rfl, rfl⟩
  · intro u h0 h1
    constructor
    · exact mul_nonneg h0 (by norm_num [MUTATION_MULT])
    · calc u * MUTATION_MULT < 1 * MUTATION_MULT :=
            mul_lt_mul_of_pos_right h1 (by norm_num [MUTATION_MULT])
        _ = MUTATION_MULT := one_mul _

/-- Witness for C5 on a concrete three-robot population, at rank position 1,
layer 0, neuron 0. -/
theorem C5_witness :
    sortRobots [cRobot 5, cRobot 7, cRobot 3] = cRobot 7 :: [cRobot 5, cRobot 3] ∧
    ([cRobot 5, cRobot 3] : List Robot)[0]? = some (cRobot 5) ∧
    (cRobot 5).nn.layers[0]? = some cLayer ∧
    (cRobot 7).nn.layers[0]? = some cLayer ∧
    cLayer.neurons[0]? = some cNeuron0 ∧
    (∃ robot2 layer2 neuron2,
      (Game.restartGame cOracle 600 430 cBox
        [cRobot 5, cRobot 7, cRobot 3]).2[0 + 1]? = some robot2 ∧
      robot2.nn.layers[0]? = some layer2 ∧
      layer2.neurons[0]? = some neuron2 ∧
      (if (([cRobot 5, cRobot 7, cRobot 3] : List Robot).length : ℚ) * (8/10) ≤
          ((0 + 1 : Nat) : ℚ) then
        neuron2.weights =
          (List.range cNeuron0.weights.length).map (fun j => cOracle.freshW (0+1) 0 0 j) ∧
        neuron2.bias = cOracle.freshB (0+1) 0 0
       else
        neuron2.weights = cNeuron0.weights.enum.map (fun jw =>
          Neuron.createMutation jw.2 (cOracle.mutRndW (0+1) 0 0 jw.1 * MUTATION_MULT)
            (cOracle.mutCoinW (0+1) 0 0 jw.1)) ∧
        neuron2.bias = Neuron.createMutation cNeuron0.bias
          (cOracle.mutRndB (0+1) 0 0 * MUTATION_MULT) (cOracle.mutCoinB (0+1) 0 0)) ∧
      (∀ u : ℚ, 0 ≤ u → u < 1 →
        0 ≤ u * MUTATION_MULT ∧ u * MUTATION_MULT < MUTATION_MULT)) := by
  have hs : sortRobots [cRobot 5, cRobot 7, cRobot 3] =
      cRobot 7 :: [cRobot 5, cRobot 3] := by
    norm_num [sortRobots, sortInsert, cRobot]
  exact ⟨hs, rfl, rfl, rfl, rfl,
    C5_theorem cOracle 600 430 cBox _ _ _ hs 0 (cRobot 5) rfl 0 cLayer cLayer
      rfl rfl 0 cNeuron0 cNeuron0 rfl rfl⟩

/-! ### Neuron activation (claim C9) -/

theorem activate_eq_of_scalar (nr : Neuron) (f : ℚ → ℚ)
    (hf : nr.activationFunc = ActFn.scalar f) (entries : List (Option ℚ)) :
    nr.activate entries = .ok (nr.activateT entries) := by
  unfold Neuron.activate Neuron.activateT
  rw [hf]

theorem activate_error (nr : Neuron) (entries : List (Option ℚ)) (e : JsError)
    (h : nr.activate entries = .error e) : e = JsError.typeError := by
  unfold Neuron.activate at h
  cases hact : nr.activationFunc with
  | scalar f => rw [hact] at h; cases h
  | vector f => rw [hact] at h; exact (Except.error.inj h).symm

theorem weightedSum_append (nr : Neuron) (e1 e2 : List (Option ℚ))
    (hlen : nr.weights.length ≤ e1.length) :
    nr.weightedSum (e1 ++ e2) = nr.weightedSum e1 := by
  unfold Neuron.weightedSum
  congr 1
  apply List.foldl_ext
  intro a x hx
  have hxlt : x < nr.weights.length := List.mem_range.mp hx
  rw [List.getD_append e1 e2 none x (lt_of_lt_of_le hxlt hlen)]

/-- C9 as frozen is false on the code: `cNeuron` has a single weight, yet
feeding it a two-entry input raises nothing and returns the plain number
`2 * 3 + 1 = 7` — the excess entry is silently ignored; there is no length
check in `Neuron.activate`. -/
theorem C9_counterexample :
    cNeuron.weights.length = 1 ∧
      cNeuron.activate [some 3, some 4] = .ok (some 7) := by
  constructor
  · rfl
  · norm_num [cNeuron, Neuron.activate, Neuron.weightedSum, linear, List.range_succ]

/-- C9 (amended): `Neuron.activate` performs no length check.  On a neuron
with a scalar activation it never raises: given at least as many entries as
weights it returns a value, and any excess entries beyond the weight vector
are ignored (the sum only reads the first `weights.length` entries). -/
theorem C9_theorem (nr : Neuron) (f : ℚ → ℚ)
    (hf : nr.activationFunc = ActFn.scalar f)
    (e1 e2 : List (Option ℚ)) (hlen : nr.weights.length ≤ e1.length) :
    nr.activate (e1 ++ e2) = nr.activate e1 ∧
      ∃ v, nr.activate e1 = Except.ok v := by
  constructor
  · unfold Neuron.activate
    rw [hf, weightedSum_append nr e1 e2 hlen]
  · exact ⟨_, activate_eq_of_scalar nr f hf e1⟩

/-- Witness for C9 (amended): `cNeuron` at entries `[3]` with excess `[4]`. -/
theorem C9_witness :
    cNeuron.activationFunc = ActFn.scalar linear ∧
    cNeuron.weights.length ≤ ([some 3] : List (Option ℚ)).length ∧
    (cNeuron.activate ([some 3] ++ [some 4]) = cNeuron.activate [some 3] ∧
      ∃ v, cNeuron.activate [some 3] = Except.ok v) :=
  ⟨rfl, by decide, C9_theorem cNeuron linear rfl [some 3] [some 4] (by decide)⟩

/-! ### Network construction and the forward pass (claims C6, C7, C8) -/

theorem createNeurons_spec (rnd : Nat → ℚ) (sz : Nat) :
    ∀ (p ws : Nat) (f : ActFn),
      (createNeurons rnd p sz ws f).1.length = sz ∧
        ∀ nr ∈ (createNeurons rnd p sz ws f).1, nr.activationFunc = f := by
  induction sz with
  | zero =>
      intro p ws f
      exact ⟨rfl, by intro nr h; cases h⟩
  | succ k ih =>
      intro p ws f
      constructor
      · show ((Neuron.create rnd p ws f).1 ::
            (createNeurons rnd (Neuron.create rnd p ws f).2 k ws f).1).length = k + 1
        rw [List.length_cons, (ih _ ws f).1]
      · intro nr h
        rcases List.mem_cons.mp h with rfl | h2
        · rfl
        · exact (ih _ ws f).2 nr h2

theorem createLayersGo_spec (reg : String → Option ActFn) (rnd : Nat → ℚ)
    (cfgs : List LayerConfig) :
    ∀ (isFirst : Bool) (prevSize p : Nat) (ls : List NeuralLayer) (p2 : Nat),
      createLayersGo reg rnd cfgs isFirst prevSize p = .ok (ls, p2) →
      List.Forall₂ (fun (L : NeuralLayer) (c : LayerConfig) =>
        L.size = c.size ∧ ∀ nr ∈ L.neurons, reg c.funcName = some nr.activationFunc)
        ls cfgs := by
  induction cfgs with
  | nil =>
      intro isFirst prevSize p ls p2 hok
      cases hok
      exact List.Forall₂.nil
  | cons c rest ih =>
      intro isFirst prevSize p ls p2 hok
      unfold createLayersGo at hok
      cases hreg : reg c.funcName with
      | none => rw [hreg] at hok; cases hok
      | some f =>
          rw [hreg] at hok
          cases isFirst with
          | true =>
              simp only [if_pos] at hok
              cases hrec : createLayersGo reg rnd rest false c.size
                  (NeuralLayer.create rnd p c.size 1 false f).2 with
              | error e =>
                  rw [hrec] at hok
                  cases hok
              | ok pr =>
                  rw [hrec] at hok
                  cases hok
                  refine List.Forall₂.cons ⟨?_, ?_⟩
                    (ih false c.size (NeuralLayer.create rnd p c.size 1 false f).2
                      pr.1 pr.2 ?_)
                  · exact (createNeurons_spec rnd c.size p 1 f).1
                  · intro nr hnr
                    rw [(createNeurons_spec rnd c.size p 1 f).2 nr hnr, hreg]
                  · rw [hrec]
          | false =>
              simp only [Bool.false_eq_true, if_false] at hok
              cases hrec : createLayersGo reg rnd rest false c.size
                  (NeuralLayer.create rnd p c.size prevSize rest.isEmpty f).2 with
              | error e =>
                  rw [hrec] at hok
                  cases hok
              | ok pr =>
                  rw [hrec] at hok
                  cases hok
                  refine List.Forall₂.cons ⟨?_, ?_⟩
                    (ih false c.size
                      (NeuralLayer.create rnd p c.size prevSize rest.isEmpty f).2
                      pr.1 pr.2 ?_)
                  · exact (createNeurons_spec rnd c.size p prevSize f).1
                  · intro nr hnr
                    rw [(createNeurons_spec rnd c.size p prevSize f).2 nr hnr, hreg]
                  · rw [hrec]

theorem createLayers_spec (reg : String → Option ActFn) (rnd : Nat → ℚ)
    (cfg : List LayerConfig) (nn : NeuralNetwork)
    (h : NeuralNetwork.createLayers reg rnd cfg = .ok nn) :
    List.Forall₂ (fun (L : NeuralLayer) (c : LayerConfig) =>
      L.size = c.size ∧ ∀ nr ∈ L.neurons, reg c.funcName = some nr.activationFunc)
      nn.layers cfg := by
  unfold NeuralNetwork.createLayers at h
  by_cases he : cfg.isEmpty
  · rw [if_pos he] at h; cases h
  · rw [if_neg he] at h
    cases hgo : createLayersGo reg rnd cfg true 0 0 with
    | error e => rw [hgo] at h; cases h
    | ok pr =>
        rw [hgo] at h
        cases h
        exact createLayersGo_spec reg rnd cfg true 0 0 pr.1 pr.2 (by rw [hgo])

theorem forallTwo_mem_left {α β : Type} {R : α → β → Prop} :
    ∀ {l1 : List α} {l2 : List β}, List.Forall₂ R l1 l2 → ∀ a ∈ l1, ∃ b ∈ l2, R a b := by
  intro l1 l2 h
  induction h with
  | nil => intro a ha; cases ha
  | @cons x y l1' l2' hr hrest ih =>
      intro a ha
      rcases List.mem_cons.mp ha with rfl | ha2
      · exact ⟨y, List.mem_cons_self y l2', hr⟩
      · rcases ih a ha2 with ⟨b, hb, hR⟩
        exact ⟨b, List.mem_cons_of_mem y hb, hR⟩

theorem forallTwo_map {α β γ : Type} {R : α → β → Prop} (sz : α → γ) (sz2 : β → γ)
    (hcompat : ∀ a b, R a b → sz a = sz2 b) :
    ∀ {l1 : List α} {l2 : List β}, List.Forall₂ R l1 l2 → l1.map sz = l2.map sz2 := by
  intro l1 l2 h
  induction h with
  | nil => rfl
  | @cons x y l1' l2' hr hrest ih =>
      rw [List.map_cons, List.map_cons, hcompat x y hr, ih]

theorem registry_scalar (sF tF : ℚ → ℚ) (smF : List ℚ → List ℚ) (name : String)
    (h : name ∈ scalarNames) :
    ∃ f, NeuralActivationFunc sF tF smF name = some (ActFn.scalar f) := by
  fin_cases h
  · exact ⟨sF, rfl⟩
  · exact ⟨relu, rfl⟩
  · exact ⟨fun x => leakyRelu x, rfl⟩
  · exact ⟨linear, rfl⟩
  · exact ⟨tF, rfl⟩

theorem built_scalar (sF tF : ℚ → ℚ) (smF : List ℚ → List ℚ) (rnd : Nat → ℚ)
    (cfg : List LayerConfig) (nn : NeuralNetwork)
    (hb : NeuralNetwork.createLayers (NeuralActivationFunc sF tF smF) rnd cfg = .ok nn)
    (hs : ∀ c ∈ cfg, c.funcName ∈ scalarNames) :
    ∀ L ∈ nn.layers, ∀ nr ∈ L.neurons, nr.IsScalar := by
  intro L hL nr hnr
  rcases forallTwo_mem_left (createLayers_spec _ rnd cfg nn hb) L hL with ⟨c, hc, -, hact⟩
  rcases registry_scalar sF tF smF c.funcName (hs c hc) with ⟨f, hf⟩
  have h2 := hact nr hnr
  rw [hf] at h2
  exact ⟨f, (Option.some_inj.mp h2).symm⟩

theorem neuronsPass_ok (input : List (Option ℚ)) (ns : List Neuron)
    (h : ∀ nr ∈ ns, nr.IsScalar) :
    neuronsPass input ns = .ok (ns.map (fun nr => nr.activateT input)) := by
  induction ns with
  | nil => rfl
  | cons x xs ih =>
      rcases h x (List.mem_cons_self x xs) with ⟨f, hf⟩
      unfold neuronsPass
      rw [activate_eq_of_scalar x f hf,
        ih (fun nr hnr => h nr (List.mem_cons_of_mem x hnr))]
      rfl

theorem firstLayerPass_ok (ns : List Neuron) :
    ∀ (vs : List ℚ), (∀ nr ∈ ns, nr.IsScalar) → ns.length = vs.length →
      firstLayerPass ns vs =
        .ok (List.zipWith (fun nr v => nr.activateT [some v]) ns vs) := by
  induction ns with
  | nil =>
      intro vs h hlen
      cases vs with
      | nil => rfl
      | cons v vs2 => cases hlen
  | cons x xs ih =>
      intro vs h hlen
      cases vs with
      | nil => cases hlen
      | cons v vs2 =>
          rcases h x (List.mem_cons_self x xs) with ⟨f, hf⟩
          unfold firstLayerPass
          rw [activate_eq_of_scalar x f hf,
            ih vs2 (fun nr hnr => h nr (List.mem_cons_of_mem x hnr))
              (Nat.succ_injective hlen)]
          rfl

theorem layersPass_ok (ls : List NeuralLayer) :
    ∀ (input : List (Option ℚ)), (∀ L ∈ ls, ∀ nr ∈ L.neurons, nr.IsScalar) →
      layersPass ls input = .ok (ls.foldl
        (fun inp L => L.neurons.map (fun nr => nr.activateT inp)) input) := by
  induction ls with
  | nil => intro input h; rfl
  | cons L ls2 ih =>
      intro input h
      unfold layersPass
      rw [neuronsPass_ok input L.neurons (h L (List.mem_cons_self L ls2))]
      show layersPass ls2 (L.neurons.map (fun nr => nr.activateT input)) = _
      rw [ih _ (fun L2 h2 => h L2 (List.mem_cons_of_mem L h2)), List.foldl_cons]

theorem neuronsPass_error (input : List (Option ℚ)) (ns : List Neuron) :
    ∀ (e : JsError), neuronsPass input ns = .error e → e = JsError.typeError := by
  induction ns with
  | nil => intro e h; cases h
  | cons x xs ih =>
      intro e h
      unfold neuronsPass at h
      cases hx : x.activate input with
      | error e2 =>
          rw [hx] at h
          have h2 : (Except.error e2 : Except JsError (List (Option ℚ))) = .error e := h
          rw [← Except.error.inj h2]
          exact activate_error x input e2 hx
      | ok r =>
          rw [hx] at h
          cases hrec : neuronsPass input xs with
          | error e3 =>
              rw [hrec] at h
              have h2 : (Except.error e3 : Except JsError (List (Option ℚ))) = .error e := h
              rw [← Except.error.inj h2]
              exact ih e3 hrec
          | ok rs => rw [hrec] at h; cases h

theorem firstLayerPass_error (ns : List Neuron) :
    ∀ (vs : List ℚ) (e : JsError),
      firstLayerPass ns vs = .error e → e = JsError.typeError := by
  induction ns with
  | nil => intro vs e h; cases h
  | cons x xs ih =>
      intro vs e h
      cases vs with
      | nil =>
          unfold firstLayerPass at h
          cases hx : x.activate [none] with
          | error e2 =>
              rw [hx] at h
              have h2 : (Except.error e2 : Except JsError (List (Option ℚ))) = .error e := h
              rw [← Except.error.inj h2]
              exact activate_error x [none] e2 hx
          | ok r =>
              rw [hx] at h
              cases hrec : firstLayerPass xs [] with
              | error e3 =>
                  rw [hrec] at h
                  have h2 : (Except.error e3 : Except JsError (List (Option ℚ))) = .error e := h
                  rw [← Except.error.inj h2]
                  exact ih [] e3 hrec
              | ok rs => rw [hrec] at h; cases h
      | cons v vs2 =>
          unfold firstLayerPass at h
          cases hx : x.activate [some v] with
          | error e2 =>
              rw [hx] at h
              have h2 : (Except.error e2 : Except JsError (List (Option ℚ))) = .error e := h
              rw [← Except.error.inj h2]
              exact activate_error x [some v] e2 hx
          | ok r =>
              rw [hx] at h
              cases hrec : firstLayerPass xs vs2 with
              | error e3 =>
                  rw [hrec] at h
                  have h2 : (Except.error e3 : Except JsError (List (Option ℚ))) = .error e := h
                  rw [← Except.error.inj h2]
                  exact ih vs2 e3 hrec
              | ok rs => rw [hrec] at h; cases h

theorem layersPass_error (ls : List NeuralLayer) :
    ∀ (input : List (Option ℚ)) (e : JsError),
      layersPass ls input = .error e → e = JsError.typeError := by
  induction ls with
  | nil => intro input e h; cases h
  | cons L ls2 ih =>
      intro input e h
      unfold layersPass at h
      cases hn : neuronsPass input L.neurons with
      | error e2 =>
          rw [hn] at h
          have h2 : (Except.error e2 : Except JsError (List (Option ℚ))) = .error e := h
          rw [← Except.error.inj h2]
          exact neuronsPass_error input L.neurons e2 hn
      | ok temp =>
          rw [hn] at h
          exact ih temp e h

theorem predict_eq (l0 : NeuralLayer) (rest : List NeuralLayer) (values : List ℚ) :
    NeuralNetwork.predict ⟨l0 :: rest⟩ values =
      (if values.length ≠ l0.size then .error JsError.shapeError
       else do
         let first ← firstLayerPass l0.neurons values
         layersPass rest first) :=
  rfl

theorem predict_ok (nn : NeuralNetwork) (l0 : NeuralLayer) (rest : List NeuralLayer)
    (values : List ℚ) (hl : nn.layers = l0 :: rest)
    (hscalar : ∀ L ∈ nn.layers, ∀ nr ∈ L.neurons, nr.IsScalar)
    (hlen : values.length = l0.size) :
    nn.predict values = .ok (rest.foldl
      (fun inp L => L.neurons.map (fun nr => nr.activateT inp))
      (List.zipWith (fun nr v => nr.activateT [some v]) l0.neurons values)) := by
  obtain ⟨layers⟩ := nn
  simp only at hl hscalar
  cases hl
  rw [predict_eq, if_neg (by simp [hlen])]
  rw [firstLayerPass_ok l0.neurons values
      (fun nr hnr => hscalar l0 (List.mem_cons_self l0 rest) nr hnr)
      hlen.symm]
  show layersPass rest (List.zipWith (fun nr v => nr.activateT [some v]) l0.neurons values) = _
  rw [layersPass_ok rest _
      (fun L h2 => hscalar L (List.mem_cons_of_mem l0 h2))]

theorem predict_shapeError_iff (nn : NeuralNetwork) (l0 : NeuralLayer)
    (rest : List NeuralLayer) (hl : nn.layers = l0 :: rest) (values : List ℚ) :
    nn.predict values = .error JsError.shapeError ↔ values.length ≠ l0.size := by
  obtain ⟨layers⟩ := nn
  simp only at hl
  cases hl
  rw [predict_eq]
  by_cases hv : values.length ≠ l0.size
  · rw [if_pos hv]
    simp [hv]
  · rw [if_neg hv]
    simp only [hv, iff_false]
    intro hcontra
    cases hf : firstLayerPass l0.neurons values with
    | error e =>
        rw [hf] at hcontra
        have h2 : (Except.error e : Except JsError (List (Option ℚ))) =
            .error JsError.shapeError := hcontra
        have h3 := firstLayerPass_error l0.neurons values e hf
        rw [h3] at h2
        cases Except.error.inj h2
    | ok first =>
        rw [hf] at hcontra
        have h3 := layersPass_error rest first JsError.shapeError hcontra
        cases h3

/-- C6 (amended): for every built network, `predict` raises the spec's
`ShapeError` exactly when the input length differs from the first layer's
size; and when the lengths match it raises nothing, provided every layer's
activation name is one of the five recognized scalar names.  (As frozen the
no-raise direction fails: the registry also accepts `SOFTMAX`, whose
vector-valued function makes `predict` throw a `TypeError` even on a
matching input — the counterexample.) -/
theorem C6_theorem (sF tF : ℚ → ℚ) (smF : List ℚ → List ℚ) (rnd : Nat → ℚ)
    (cfg : List LayerConfig) (nn : NeuralNetwork) (values : List ℚ)
    (l0 : NeuralLayer) (rest : List NeuralLayer)
    (hb : NeuralNetwork.createLayers (NeuralActivationFunc sF tF smF) rnd cfg = .ok nn)
    (hl : nn.layers = l0 :: rest) :
    (nn.predict values = .error JsError.shapeError ↔ values.length ≠ l0.size) ∧
    ((∀ c ∈ cfg, c.funcName ∈ scalarNames) → values.length = l0.size →
      ∃ out, nn.predict values = .ok out) := by
  refine ⟨predict_shapeError_iff nn l0 rest hl values, ?_⟩
  intro hs hlen
  exact ⟨_, predict_ok nn l0 rest values hl (built_scalar sF tF smF rnd cfg nn hb hs) hlen⟩

/-- C6 as frozen is false on the code: the configuration
`[{size: 1, funcName: "SOFTMAX"}]` builds successfully, the input `[0]` has
exactly the first layer's length, and yet `predict` raises (a `TypeError`
from applying the vector-valued softmax in the scalar activation path, per
the source's FIXME comment). -/
theorem C6_counterexample :
    NeuralNetwork.createLayers cReg cRnd [⟨1, "SOFTMAX"⟩] = .ok cSoftNet ∧
    ([(0 : ℚ)] : List ℚ).length = 1 ∧
    cSoftNet.layers.map NeuralLayer.size = [1] ∧
    cSoftNet.predict [0] = .error JsError.typeError :=
  ⟨rfl, rfl, rfl, rfl⟩

/-- Witness for C6 (amended) on the built two-layer linear network. -/
theorem C6_witness :
    NeuralNetwork.createLayers cReg cRnd cCfg = .ok cLinNet ∧
    cLinNet.layers = ⟨[⟨[2], 2, .scalar linear⟩, ⟨[2], 2, .scalar linear⟩], false⟩ ::
      [⟨[⟨[2, 2], 2, .scalar linear⟩], true⟩] ∧
    ((cLinNet.predict [3, 4] = .error JsError.shapeError ↔
        ([3, 4] : List ℚ).length ≠
          NeuralLayer.size ⟨[⟨[2], 2, .scalar linear⟩, ⟨[2], 2, .scalar linear⟩], false⟩) ∧
      ((∀ c ∈ cCfg, c.funcName ∈ scalarNames) →
        ([3, 4] : List ℚ).length =
          NeuralLayer.size ⟨[⟨[2], 2, .scalar linear⟩, ⟨[2], 2, .scalar linear⟩], false⟩ →
        ∃ out, cLinNet.predict [3, 4] = .ok out)) :=
  ⟨rfl, rfl, C6_theorem (fun x => x) (fun x => x) (fun l => l) cRnd cCfg cLinNet
    [3, 4] _ _ rfl rfl⟩

/-- C7 as frozen quantifies over every built network, but a network built
from `[{size: 1, funcName: "SOFTMAX"}]` refutes it: on the length-matching
input `[0]`, `predict` throws a `TypeError` (the vector-valued softmax
applied in the scalar activation path) instead of returning the final
layer's output vector. -/
theorem C7_counterexample :
    NeuralNetwork.createLayers cReg cRnd [⟨1, "SOFTMAX"⟩] = .ok cSoftNet ∧
    cSoftNet.layers = ⟨[⟨[2], 2, .vector (fun l => l)⟩], false⟩ :: [] ∧
    ([(0 : ℚ)] : List ℚ).length =
      NeuralLayer.size ⟨[⟨[2], 2, .vector (fun l => l)⟩], false⟩ ∧
    cSoftNet.predict [0] = .error JsError.typeError :=
  ⟨rfl, rfl, rfl, rfl⟩

/-- C7 (amended): the forward-pass structure of `predict`, on networks
built from configurations whose activation names are among the five scalar
names (the frozen claim's quantification over every built network fails on
SOFTMAX-built networks, per the counterexample).  With a matching input,
layer 0 is computed by feeding neuron `i` only the one-element slice
`[values[i]]` (the `zipWith`), every subsequent layer feeds each of its
neurons the entire previous output vector (the `map` over a layer inside
the `foldl`), and the final layer's output vector is returned. -/
theorem C7_theorem (sF tF : ℚ → ℚ) (smF : List ℚ → List ℚ) (rnd : Nat → ℚ)
    (cfg : List LayerConfig) (nn : NeuralNetwork) (values : List ℚ)
    (l0 : NeuralLayer) (rest : List NeuralLayer)
    (hb : NeuralNetwork.createLayers (NeuralActivationFunc sF tF smF) rnd cfg = .ok nn)
    (hl : nn.layers = l0 :: rest)
    (hs : ∀ c ∈ cfg, c.funcName ∈ scalarNames)
    (hlen : values.length = l0.size) :
    nn.predict values = .ok (rest.foldl
      (fun inp L => L.neurons.map (fun nr => nr.activateT inp))
      (List.zipWith (fun nr v => nr.activateT [some v]) l0.neurons values)) :=
  predict_ok nn l0 rest values hl (built_scalar sF tF smF rnd cfg nn hb hs) hlen

/-- Witness for C7 on the built two-layer linear network at input `[3, 4]`. -/
theorem C7_witness :
    NeuralNetwork.createLayers cReg cRnd cCfg = .ok cLinNet ∧
    cLinNet.layers = ⟨[⟨[2], 2, .scalar linear⟩, ⟨[2], 2, .scalar linear⟩], false⟩ ::
      [⟨[⟨[2, 2], 2, .scalar linear⟩], true⟩] ∧
    (∀ c ∈ cCfg, c.funcName ∈ scalarNames) ∧
    ([3, 4] : List ℚ).length =
      NeuralLayer.size ⟨[⟨[2], 2, .scalar linear⟩, ⟨[2], 2, .scalar linear⟩], false⟩ ∧
    cLinNet.predict [3, 4] = .ok
      (([⟨[⟨[2, 2], 2, .scalar linear⟩], true⟩] : List NeuralLayer).foldl
        (fun inp L => L.neurons.map (fun nr => nr.activateT inp))
        (List.zipWith (fun nr v => nr.activateT [some v])
          (NeuralLayer.neurons
            ⟨[⟨[2], 2, .scalar linear⟩, ⟨[2], 2, .scalar linear⟩], false⟩)
          [3, 4])) :=
  ⟨rfl, rfl, by decide, rfl,
    C7_theorem (fun x => x) (fun x => x) (fun l => l) cRnd cCfg cLinNet [3, 4] _ _
      rfl rfl (by decide) rfl⟩

theorem foldl_layers_length (ls : List NeuralLayer) :
    ∀ (input : List (Option ℚ)),
      (ls.foldl (fun inp L => L.neurons.map (fun nr => nr.activateT inp)) input).length
        = (ls.map NeuralLayer.size).getLastD input.length := by
  induction ls with
  | nil => intro input; rfl
  | cons L ls2 ih =>
      intro input
      rw [List.foldl_cons, ih, List.map_cons, List.getLastD_cons]
      congr 1
      simp [NeuralLayer.size]

/-- C8: shape invariant.  For every built network whose configuration is
non-empty and uses only the five recognized scalar activation names, and
every input whose length equals the first layer's size, `predict` succeeds
and the returned vector's length equals the last layer's configured size. -/
theorem C8_theorem (sF tF : ℚ → ℚ) (smF : List ℚ → List ℚ) (rnd : Nat → ℚ)
    (cfg : List LayerConfig) (nn : NeuralNetwork) (values : List ℚ)
    (l0 : NeuralLayer) (rest : List NeuralLayer) (cL : LayerConfig)
    (hb : NeuralNetwork.createLayers (NeuralActivationFunc sF tF smF) rnd cfg = .ok nn)
    (hl : nn.layers = l0 :: rest) (hlast : cfg.getLast? = some cL)
    (hs : ∀ c ∈ cfg, c.funcName ∈ scalarNames)
    (hlen : values.length = l0.size) :
    ∃ out, nn.predict values = .ok out ∧ out.length = cL.size := by
  refine ⟨_, predict_ok nn l0 rest values hl
      (built_scalar sF tF smF rnd cfg nn hb hs) hlen, ?_⟩
  rw [foldl_layers_length]
  have h1 : (List.zipWith (fun nr v => nr.activateT [some v]) l0.neurons values).length
      = l0.size := by
    rw [List.length_zipWith, hlen]
    exact min_self _
  rw [h1]
  have hsizes : nn.layers.map NeuralLayer.size = cfg.map LayerConfig.size :=
    forallTwo_map NeuralLayer.size LayerConfig.size (fun a b hr => hr.1)
      (createLayers_spec _ rnd cfg nn hb)
  rw [hl, List.map_cons] at hsizes
  have h2 : (l0.size :: rest.map NeuralLayer.size).getLast? =
      (cfg.map LayerConfig.size).getLast? := by rw [hsizes]
  rw [List.getLast?_map, hlast, List.getLast?_cons] at h2
  rw [List.getLastD_eq_getLast?]
  exact Option.some_inj.mp h2

/-- Witness for C8 on the built two-layer linear network at input `[3, 4]`. -/
theorem C8_witness :
    NeuralNetwork.createLayers cReg cRnd cCfg = .ok cLinNet ∧
    cLinNet.layers = ⟨[⟨[2], 2, .scalar linear⟩, ⟨[2], 2, .scalar linear⟩], false⟩ ::
      [⟨[⟨[2, 2], 2, .scalar linear⟩], true⟩] ∧
    cCfg.getLast? = some ⟨1, "LINEAR"⟩ ∧
    (∀ c ∈ cCfg, c.funcName ∈ scalarNames) ∧
    ([3, 4] : List ℚ).length =
      NeuralLayer.size ⟨[⟨[2], 2, .scalar linear⟩, ⟨[2], 2, .scalar linear⟩], false⟩ ∧
    ∃ out, cLinNet.predict [3, 4] = .ok out ∧
      out.length = LayerConfig.size ⟨1, "LINEAR"⟩ :=
  ⟨rfl, rfl, rfl, by decide, rfl,
    C8_theorem (fun x => x) (fun x => x) (fun l => l) cRnd cCfg cLinNet [3, 4] _ _
      ⟨1, "LINEAR"⟩ rfl rfl rfl (by decide) rfl⟩

end NNGame
